import Mathlib

set_option maxHeartbeats 2000000
set_option maxRecDepth 8000

open Matrix

/-!
Shallow embedding of libeknav's pseudorange INS quaternion Kalman filter
(src/eknav/pr_ins_qkf.cpp), with the float/double arithmetic idealized as
exact rational arithmetic.

The generic linear-algebra kernel (Euclidean square root inside vector
norms, the quaternion exp and log maps) lives outside pr_ins_qkf.cpp, so
those primitives appear here as explicit function parameters of the
operations that call them.  Everything else is transcribed line by line
from the source file.
-/

/-- 3-vectors (Eigen Vector3f / Vector3d; precision distinctions dropped). -/
abbrev V3 := Fin 3 → ℚ

/-- 3x3 matrices (Eigen Matrix3f). -/
abbrev M3 := Matrix (Fin 3) (Fin 3) ℚ

/-- 4x4 position/clock covariance (Eigen Matrix<float, 4, 4>). -/
abbrev M4 := Matrix (Fin 4) (Fin 4) ℚ

/-- 12x12 inertial covariance (Eigen Matrix<float, 12, 12>). -/
abbrev M12 := Matrix (Fin 12) (Fin 12) ℚ

/-- Euclidean inner product of two 3-vectors. -/
def dot3 (u v : V3) : ℚ := u 0 * v 0 + u 1 * v 1 + u 2 * v 2

/-- Vector cross product (Eigen Vector3::cross). -/
def crossV (u v : V3) : V3 :=
  ![u 1 * v 2 - u 2 * v 1, u 2 * v 0 - u 0 * v 2, u 0 * v 1 - u 1 * v 0]

/-- Quaternions with scalar part w and vector part (x, y, z). -/
structure Quat where
  w : ℚ
  x : ℚ
  y : ℚ
  z : ℚ
deriving DecidableEq

/-- The identity quaternion (Eigen Quaternion::Identity). -/
def qOne : Quat := ⟨1, 0, 0, 0⟩

/-- Quaternion conjugate. -/
def qconj (q : Quat) : Quat := ⟨q.w, -q.x, -q.y, -q.z⟩

/-- Coefficient-wise negation (coeffs() *= -1 in the source). -/
def qneg (q : Quat) : Quat := ⟨-q.w, -q.x, -q.y, -q.z⟩

/-- Hamilton product. -/
def qmul (a b : Quat) : Quat :=
  ⟨a.w * b.w - a.x * b.x - a.y * b.y - a.z * b.z,
   a.w * b.x + a.x * b.w + a.y * b.z - a.z * b.y,
   a.w * b.y - a.x * b.z + a.y * b.w + a.z * b.x,
   a.w * b.z + a.x * b.y - a.y * b.x + a.z * b.w⟩

/-- Dot product of the coefficient 4-vectors (coeffs().dot in the source). -/
def qcdot (a b : Quat) : ℚ := a.w * b.w + a.x * b.x + a.y * b.y + a.z * b.z

/-- The vector part of a quaternion. -/
def qvec (q : Quat) : V3 := ![q.x, q.y, q.z]

/-- Rotation of a vector by a quaternion, exactly as Eigen's
    Quaternion::_transformVector computes it: v + w*(2 u x v) + u x (2 u x v). -/
def qrot (q : Quat) (v : V3) : V3 :=
  let uv : V3 := (2 : ℚ) • crossV (qvec q) v
  v + q.w • uv + crossV (qvec q) uv

/-- Eigen Quaternion::toRotationMatrix (unit-quaternion formula). -/
def toRotationMatrix (q : Quat) : M3 :=
  Matrix.of
    ![![1 - 2 * (q.y * q.y + q.z * q.z), 2 * (q.x * q.y - q.z * q.w), 2 * (q.x * q.z + q.y * q.w)],
      ![2 * (q.x * q.y + q.z * q.w), 1 - 2 * (q.x * q.x + q.z * q.z), 2 * (q.y * q.z - q.x * q.w)],
      ![2 * (q.x * q.z - q.y * q.w), 2 * (q.y * q.z + q.x * q.w), 1 - 2 * (q.x * q.x + q.y * q.y)]]

/-- Modelled from the spec: the helper cross<float> that pr_ins_qkf.cpp calls
    lives in a header outside this source file; spec section 4.3 describes it as
    "the skew-symmetric cross-product matrix" so that crossMat v *v w = v x w. -/
def crossMat (v : V3) : M3 :=
  Matrix.of ![![0, -(v 2), v 1], ![v 2, 0, -(v 0)], ![-(v 1), v 0, 0]]

/-- Normalization of a 3-vector, v / ||v||, with the square root supplied by the
    external kernel (Eigen Vector3::normalized). -/
def normalized3 (sqrtQ : ℚ → ℚ) (v : V3) : V3 :=
  (1 / sqrtQ (dot3 v v)) • v

/-- The mean state (pseudorange_ins_qkf::state).  inertial_accel and body_rate
    are caches refreshed by predict_ecef, not part of the error state. -/
structure State where
  position : V3
  velocity : V3
  orientation : Quat
  gyro_bias : V3
  accel_bias : V3
  clock_bias : ℚ
  inertial_accel : V3
  body_rate : V3

/-- The filter: mean state plus the split covariance (12x12 inertial block and
    4x4 position/clock block). -/
structure pseudorange_ins_qkf where
  avg_state : State
  cov : M12
  pt_cov : M4

/-- The tunable process-noise parameters, fixed at construction
    (members of pseudorange_ins_qkf used by predict_ecef). -/
structure Params where
  gyro_stability_noise : V3
  gyro_white_noise : V3
  accel_white_noise : V3
  accel_stability_noise : V3
  clock_stability_noise : ℚ
  accel_gravity_norm : ℚ

/-- Read the 3x3 block of a 12x12 matrix at block coordinates (r, c)
    (element offset (3r, 3c)); Eigen's cov.block<3,3>(3r, 3c). -/
def getB (M : M12) (r c : Fin 4) : M3 :=
  Matrix.of fun a b => M ⟨3 * r.val + a.val, by omega⟩ ⟨3 * c.val + b.val, by omega⟩

/-- Overwrite the 3x3 block of a 12x12 matrix at block coordinates (r, c). -/
def setB (M : M12) (r c : Fin 4) (B : M3) : M12 :=
  Matrix.of fun i j =>
    if i.val / 3 = r.val ∧ j.val / 3 = c.val then
      B ⟨i.val % 3, Nat.mod_lt _ (by norm_num)⟩ ⟨j.val % 3, Nat.mod_lt _ (by norm_num)⟩
    else M i j

/-- Accumulate into the 3x3 block of a 12x12 matrix at block coordinates (r, c)
    (Eigen's cov.block<3,3>(3r, 3c) += B). -/
def addB (M : M12) (r c : Fin 4) (B : M3) : M12 :=
  Matrix.of fun i j =>
    if i.val / 3 = r.val ∧ j.val / 3 = c.val then
      M i j + B ⟨i.val % 3, Nat.mod_lt _ (by norm_num)⟩ ⟨j.val % 3, Nat.mod_lt _ (by norm_num)⟩
    else M i j

/-- Accumulate into the upper-left 3x3 block of the 4x4 position/clock
    covariance (pt_cov.block<3,3>(0,0) += B). -/
def addPt33 (P : M4) (B : M3) : M4 :=
  Matrix.of fun i j =>
    if h : i.val < 3 ∧ j.val < 3 then P i j + B ⟨i.val, h.1⟩ ⟨j.val, h.2⟩ else P i j

/-- Accumulate into the clock variance entry (pt_cov(3,3) += x). -/
def addClock (P : M4) (x : ℚ) : M4 :=
  Matrix.of fun i j => if i.val = 3 ∧ j.val = 3 then P i j + x else P i j

/-- The default constructor pseudorange_ins_qkf::pseudorange_ins_qkf.
    piQ stands for the math.h double constant M_PI. -/
def defaultFilter (piQ : ℚ) : pseudorange_ins_qkf :=
  let gyro_bias_rms : ℚ := (3 * piQ / 180) * (3 * piQ / 180)
  let accel_bias_rms : ℚ := (3/10) * (3/10)
  let clock_bias_rms : ℚ := 300 * 300
  let initial_pos_err : ℚ := 100000 * 100000
  { avg_state :=
      { position := 0
        velocity := 0
        orientation := qOne
        gyro_bias := 0
        accel_bias := 0
        clock_bias := 0
        -- inertial_accel and body_rate are left uninitialized by the C++
        -- constructor; they are modelled as zero here.
        inertial_accel := 0
        body_rate := 0 }
    cov :=
      setB (setB (setB (setB (0 : M12) 0 0 (gyro_bias_rms • (1 : M3)))
            1 1 ((piQ * piQ * (1/2)) • (1 : M3)))
          2 2 ((100 : ℚ) • (1 : M3)))
        3 3 (accel_bias_rms • (1 : M3))
    pt_cov :=
      Matrix.of fun i j =>
        if i.val < 3 ∧ j.val < 3 then
          (if i = j then initial_pos_err else 0)
        else if i.val = 3 ∧ j.val = 3 then clock_bias_rms else 0 }

/-- pseudorange_ins_qkf::clear_covariance_block: for an inertial offset
    (rowcol <= 9) zero the 3x12 row strip and the 12x3 column strip, then write
    the replacement into the 3x3 diagonal block; for the position sentinel
    (rowcol = 12) reset pt_cov, write the position block, and default the clock
    variance to 300^2. -/
def clear_covariance_block (rowcol : ℕ) (repl : M3) (f : pseudorange_ins_qkf) : pseudorange_ins_qkf :=
  if rowcol ≤ 9 then
    let cov1 : M12 := Matrix.of fun i j =>
      if rowcol ≤ i.val ∧ i.val < rowcol + 3 then 0 else f.cov i j
    let cov2 : M12 := Matrix.of fun i j =>
      if rowcol ≤ j.val ∧ j.val < rowcol + 3 then 0 else cov1 i j
    let cov3 : M12 := Matrix.of fun i j =>
      if (rowcol ≤ i.val ∧ i.val < rowcol + 3) ∧ (rowcol ≤ j.val ∧ j.val < rowcol + 3) then
        repl ⟨(i.val - rowcol) % 3, Nat.mod_lt _ (by norm_num)⟩
             ⟨(j.val - rowcol) % 3, Nat.mod_lt _ (by norm_num)⟩
      else cov2 i j
    { f with cov := cov3 }
  else
    let clock_bias_rms : ℚ := 300 * 300
    { f with pt_cov :=
        Matrix.of fun i j =>
          if h : i.val < 3 ∧ j.val < 3 then repl ⟨i.val, h.1⟩ ⟨j.val, h.2⟩
          else if i.val = 3 ∧ j.val = 3 then clock_bias_rms else 0 }

/-- pseudorange_ins_qkf::init_attitude. -/
def init_attitude (attitude : Quat) (attitude_error : M3) (f : pseudorange_ins_qkf) : pseudorange_ins_qkf :=
  clear_covariance_block 3 attitude_error
    { f with avg_state := { f.avg_state with orientation := attitude } }

/-- pseudorange_ins_qkf::init_velocity. -/
def init_velocity (vel : V3) (vel_error : V3) (f : pseudorange_ins_qkf) : pseudorange_ins_qkf :=
  clear_covariance_block 6 (Matrix.diagonal vel_error)
    { f with avg_state := { f.avg_state with velocity := vel } }

/-- pseudorange_ins_qkf::init_position. -/
def init_position (pos : V3) (pos_error : V3) (f : pseudorange_ins_qkf) : pseudorange_ins_qkf :=
  clear_covariance_block 12 (Matrix.diagonal pos_error)
    { f with avg_state := { f.avg_state with position := pos } }

/-- Modelled from the spec: incremental_normalized is declared in a header
    outside this source file; spec sections 4.1 and 9 describe it as
    "incremental normalization: divide by current norm".  The square root
    is the external kernel's. -/
def incremental_normalized (sqrtQ : ℚ → ℚ) (q : Quat) : Quat :=
  let n : ℚ := sqrtQ (qcdot q q)
  ⟨q.w / n, q.x / n, q.y / n, q.z / n⟩

/-- pseudorange_ins_qkf::state::apply_kalman_vec_update (4-vector overload):
    position += update.segment<3>(0), clock_bias += update(3). -/
def apply_kalman_vec_update4 (st : State) (update : Fin 4 → ℚ) : State :=
  { st with
    position := st.position + fun k : Fin 3 => update ⟨k.val, by omega⟩
    clock_bias := st.clock_bias + update 3 }

/-- pseudorange_ins_qkf::state::apply_kalman_vec_update (12-vector overload):
    additive on gyro_bias, velocity, accel_bias; the attitude correction
    multiplies orientation on the right by exp of the attitude segment and
    renormalizes incrementally. -/
def apply_kalman_vec_update12 (sqrtQ : ℚ → ℚ) (expQ : V3 → Quat)
    (st : State) (update : Fin 12 → ℚ) : State :=
  let posterior_update : Quat := expQ fun k : Fin 3 => update ⟨k.val + 3, by omega⟩
  { st with
    gyro_bias := st.gyro_bias + fun k : Fin 3 => update ⟨k.val, by omega⟩
    orientation := incremental_normalized sqrtQ (qmul st.orientation posterior_update)
    velocity := st.velocity + fun k : Fin 3 => update ⟨k.val + 6, by omega⟩
    accel_bias := st.accel_bias + fun k : Fin 3 => update ⟨k.val + 9, by omega⟩ }

/-- pseudorange_ins_qkf::predict_ecef.
    The covariance propagation is transcribed operation by operation from the
    blockwise sgemm/ssyr2k/sgemmm calls of the source, reading every block from
    the snapshot cov0 and writing into the accumulating matrix, then mirroring
    the six lower off-diagonal blocks from the upper triangle, then adding the
    process noise; the mean is then projected forward.

    The result is an Option: the source normalizes avg_state.position
    unconditionally, and for the zero position IEEE arithmetic turns
    0/||0|| = 0/0 into NaN, which propagates into inertial_accel and (through
    the kinematic update) into the mean position and velocity, so the
    is_real/invariants_met finiteness check fails.  Exact arithmetic has no
    NaN, so that fault is modelled as none. -/
def predict_ecef (sqrtQ : ℚ → ℚ) (expQ : V3 → Quat) (prm : Params)
    (f : pseudorange_ins_qkf) (gyro_meas accel_meas : V3) (dt : ℚ) :
    Option pseudorange_ins_qkf :=
  let attitude_conj : Quat := qconj f.avg_state.orientation
  let accel_sensible_ecef : V3 := qrot attitude_conj (accel_meas - f.avg_state.accel_bias)
  if f.avg_state.position = 0 then none
  else
    let accel_gravity : V3 :=
      prm.accel_gravity_norm • normalized3 sqrtQ f.avg_state.position
    let inertial_accel : V3 := accel_sensible_ecef - accel_gravity
    let accel_cov : M3 := crossMat (-accel_sensible_ecef)
    -- Take a full copy of the covariance matrix
    let cov0 : M12 := f.cov
    let dtR : M3 := (-dt) • toRotationMatrix attitude_conj
    let dtQ : M3 := (-dt) • accel_cov
    -- sgemm(this->cov, 0, 3, dtR, cov, 0, 0)
    let c1 := addB f.cov 0 1 (getB cov0 0 0 * dtRᵀ)
    -- sgemm(this->cov, 0, 6, dtQ, cov, 0, 3)
    let c2 := addB c1 0 2 (getB cov0 0 1 * dtQᵀ)
    -- sgemm(this->cov, 0, 6, dtR, cov, 0, 9)
    let c3 := addB c2 0 2 (getB cov0 0 3 * dtRᵀ)
    -- sgemmm(this->cov, 3, dtR, cov, 0)
    let c4 := addB c3 1 1 (dtR * getB cov0 0 0 * dtRᵀ)
    -- ssyr2k(this->cov, 3, 3, dtR, cov, 0, 3)
    let c5 := addB c4 1 1 (dtR * getB cov0 0 1 + getB cov0 1 0 * dtRᵀ)
    -- cov.block(3,6) += dtR*cov(0,6) + dtR*cov(0,3)*dtQ.transpose()
    let c6 := addB c5 1 2 (dtR * getB cov0 0 2 + dtR * getB cov0 0 1 * dtQᵀ)
    -- sgemmm(this->cov, 3, 6, dtR, cov, 0, 9)
    let c7 := addB c6 1 2 (dtR * getB cov0 0 3 * dtRᵀ)
    -- sgemm(this->cov, 3, 6, dtR, cov, 3, 9)
    let c8 := addB c7 1 2 (getB cov0 1 3 * dtRᵀ)
    -- sgemm(this->cov, 3, 6, dtQ, cov, 3, 3)
    let c9 := addB c8 1 2 (getB cov0 1 1 * dtQᵀ)
    -- cov.block(3,9) += dtR*cov(0,9)
    let c10 := addB c9 1 3 (dtR * getB cov0 0 3)
    -- ssyr2k(this->cov, 6, 6, dtQ, cov, 3, 6)
    let c11 := addB c10 2 2 (dtQ * getB cov0 1 2 + getB cov0 2 1 * dtQᵀ)
    -- ssyr2k(this->cov, 6, 6, dtR, cov, 9, 6)
    let c12 := addB c11 2 2 (dtR * getB cov0 3 2 + getB cov0 2 3 * dtRᵀ)
    -- tmp = dtR * (dtQ * cov.block(3,9)).transpose(); cov(6,6) += tmp + tmp'
    let tmp : M3 := dtR * (dtQ * getB cov0 1 3)ᵀ
    let c13 := addB c12 2 2 (tmp + tmpᵀ)
    -- sgemmm(this->cov, 6, dtQ, cov, 3)
    let c14 := addB c13 2 2 (dtQ * getB cov0 1 1 * dtQᵀ)
    -- sgemmm(this->cov, 6, dtR, cov, 9)
    let c15 := addB c14 2 2 (dtR * getB cov0 3 3 * dtRᵀ)
    -- cov.block(6,9) += dtQ*cov(3,9) + dtR*cov(9,9)
    let c16 := addB c15 2 3 (dtQ * getB cov0 1 3 + dtR * getB cov0 3 3)
    -- Maintain symmetric form: mirror the six lower 3x3 blocks from the upper
    let m1 := setB c16 1 0 ((getB c16 0 1)ᵀ)
    let m2 := setB m1 2 0 ((getB m1 0 2)ᵀ)
    let m3 := setB m2 2 1 ((getB m2 1 2)ᵀ)
    let m4 := setB m3 3 0 ((getB m3 0 3)ᵀ)
    let m5 := setB m4 3 1 ((getB m4 1 3)ᵀ)
    let m6 := setB m5 3 2 ((getB m5 2 3)ᵀ)
    -- this->pt_cov.block<3,3>(0,0) += dt*dt*cov.block<3,3>(6,6)  (snapshot)
    let pt1 := addPt33 f.pt_cov ((dt * dt) • getB cov0 2 2)
    -- Add Q-matrix state estimate noise blocks
    let c17 := addB m6 0 0 (dt • Matrix.diagonal prm.gyro_stability_noise)
    let c18 := addB c17 1 1 (dt • Matrix.diagonal prm.gyro_white_noise)
    let c19 := addB c18 2 2 (dt • Matrix.diagonal prm.accel_white_noise)
    let c20 := addB c19 3 3 (dt • Matrix.diagonal prm.accel_stability_noise)
    let pt2 := addPt33 pt1 (((1/2) * dt * dt) • Matrix.diagonal prm.accel_white_noise)
    let pt3 := addClock pt2 (prm.clock_stability_noise * dt)
    -- Project the mean forward
    let body_rate : V3 := gyro_meas - f.avg_state.gyro_bias
    let orientation : Quat := qmul (expQ (dt • body_rate)) f.avg_state.orientation
    let position : V3 :=
      f.avg_state.position + dt • f.avg_state.velocity + ((1/2) * dt * dt) • inertial_accel
    let velocity : V3 := f.avg_state.velocity + dt • inertial_accel
    some
      { avg_state :=
          { f.avg_state with
            position := position
            velocity := velocity
            orientation := orientation
            inertial_accel := inertial_accel
            body_rate := body_rate }
        cov := c20
        pt_cov := pt3 }

/-- pseudorange_ins_qkf::obs_gps_pseudorange.  Returns the filter (only pt_cov
    is written) and the threaded 4-vector accumulator. -/
def obs_gps_pseudorange (sqrtQ : ℚ → ℚ) (f : pseudorange_ins_qkf)
    (accum : Fin 4 → ℚ) (sat_pos : V3) (pseudorange : ℚ) (error : ℚ) :
    pseudorange_ins_qkf × (Fin 4 → ℚ) :=
  let accum_head : V3 := fun k : Fin 3 => accum ⟨k.val, by omega⟩
  let directiond0 : V3 := f.avg_state.position + accum_head - sat_pos
  let prediction0 : ℚ := sqrtQ (dot3 directiond0 directiond0)
  let directiond : V3 := (1 / prediction0) • directiond0
  let prediction : ℚ := prediction0 + f.avg_state.clock_bias + accum 3
  let direction : Fin 4 → ℚ := fun k => if h : k.val < 3 then directiond ⟨k.val, h⟩ else 1
  let innovation_cov : ℚ := Matrix.dotProduct direction (Matrix.mulVec f.pt_cov direction)
  let residual : ℚ := prediction - pseudorange
  let innovation_cov_inverse : ℚ := 1 / (innovation_cov + error)
  let gain : Fin 4 → ℚ := fun k => Matrix.mulVec f.pt_cov direction k * innovation_cov_inverse
  let accum2 : Fin 4 → ℚ := fun k => accum k + gain k * residual
  let ptc : M4 := Matrix.of fun k l => f.pt_cov k l - gain k * Matrix.vecMul direction f.pt_cov l
  ({ f with pt_cov := ptc }, accum2)

/-- pseudorange_ins_qkf::obs_gps_deltarange.  Returns the filter (only cov is
    written) and the threaded 12-vector accumulator. -/
def obs_gps_deltarange (sqrtQ : ℚ → ℚ) (f : pseudorange_ins_qkf)
    (accum : Fin 12 → ℚ) (sat_vel : V3) (deltarange : ℚ) (error : ℚ) :
    pseudorange_ins_qkf × (Fin 12 → ℚ) :=
  let accum_vel : V3 := fun k : Fin 3 => accum ⟨k.val + 6, by omega⟩
  let directiond0 : V3 := f.avg_state.velocity + accum_vel - sat_vel
  let prediction : ℚ := sqrtQ (dot3 directiond0 directiond0)
  let direction : V3 := (1 / prediction) • directiond0
  let innovation_cov : ℚ :=
    Matrix.dotProduct direction (Matrix.mulVec (getB f.cov 2 2) direction)
  let residual : ℚ := prediction - deltarange
  let innovation_cov_inverse : ℚ := 1 / (innovation_cov + error)
  let gain : Fin 12 → ℚ := fun k =>
    (∑ l : Fin 3, f.cov k ⟨6 + l.val, by omega⟩ * direction l) * innovation_cov_inverse
  let accum2 : Fin 12 → ℚ := fun k => accum k + gain k * residual
  let covc : M12 := Matrix.of fun k l =>
    f.cov k l - gain k * ∑ m : Fin 3, direction m * f.cov ⟨6 + m.val, by omega⟩ l
  ({ f with cov := covc }, accum2)

/-- One scalar axis of the position leg of obs_gps_pv_report, exactly as the
    source computes it: the gain is column i of pt_cov over its innovation
    variance, but the covariance update subtracts gain times
    cov.block<1,4>(i,0) — row i, first four columns, of the 12x12 INERTIAL
    covariance member, not of pt_cov. -/
def pv_position_leg_step (covM : M12) (residual p_error : V3) (i : Fin 3)
    (acc : M4 × (Fin 4 → ℚ)) : M4 × (Fin 4 → ℚ) :=
  let P := acc.1
  let u := acc.2
  let i4 : Fin 4 := ⟨i.val, by omega⟩
  let innovation_cov_inv : ℚ := 1 / (P i4 i4 + p_error i)
  let gain : Fin 4 → ℚ := fun r => P r i4 * innovation_cov_inv
  (Matrix.of fun r c => P r c - gain r * covM ⟨i.val, by omega⟩ ⟨c.val, by omega⟩,
   fun r => u r + gain r * (residual i - u i4))

/-- The position leg of obs_gps_pv_report: three sequential scalar updates,
    threading pt_cov and the 4-vector accumulator, as the source writes it. -/
def pv_position_leg (pt0 : M4) (covM : M12) (residual p_error : V3) :
    M4 × (Fin 4 → ℚ) :=
  pv_position_leg_step covM residual p_error 2
    (pv_position_leg_step covM residual p_error 1
      (pv_position_leg_step covM residual p_error 0 (pt0, fun _ => 0)))

/-- One scalar axis of the position leg as the spec's words have it
    (sections 4.8 and 9, and claim C1): the covariance update subtracts gain
    times row i of pt_cov itself, the form the scalar Kalman equations give. -/
def pv_position_leg_per_spec_step (residual p_error : V3) (i : Fin 3)
    (acc : M4 × (Fin 4 → ℚ)) : M4 × (Fin 4 → ℚ) :=
  let P := acc.1
  let u := acc.2
  let i4 : Fin 4 := ⟨i.val, by omega⟩
  let innovation_cov_inv : ℚ := 1 / (P i4 i4 + p_error i)
  let gain : Fin 4 → ℚ := fun r => P r i4 * innovation_cov_inv
  (Matrix.of fun r c => P r c - gain r * P i4 c,
   fun r => u r + gain r * (residual i - u i4))

/-- The position leg as the spec's words have it, for comparison with
    pv_position_leg. -/
def pv_position_leg_per_spec (pt0 : M4) (residual p_error : V3) :
    M4 × (Fin 4 → ℚ) :=
  pv_position_leg_per_spec_step residual p_error 2
    (pv_position_leg_per_spec_step residual p_error 1
      (pv_position_leg_per_spec_step residual p_error 0 (pt0, fun _ => 0)))

/-- One scalar axis of the velocity leg of obs_gps_pv_report: gain is column
    6+i of the current cov over its innovation variance; cov is updated with
    its own row 6+i. -/
def pv_velocity_leg_step (residual p_error : V3) (i : Fin 3)
    (acc : M12 × (Fin 12 → ℚ)) : M12 × (Fin 12 → ℚ) :=
  let C := acc.1
  let u := acc.2
  let i12 : Fin 12 := ⟨6 + i.val, by omega⟩
  let innovation_cov_inv : ℚ := 1 / (C i12 i12 + p_error i)
  let gain : Fin 12 → ℚ := fun r => C r i12 * innovation_cov_inv
  (Matrix.of fun r c => C r c - gain r * C i12 c,
   fun r => u r + gain r * (residual i - u i12))

/-- The velocity leg of obs_gps_pv_report: three sequential scalar updates
    threading cov and the 12-vector accumulator. -/
def pv_velocity_leg (cov0 : M12) (residual v_error : V3) :
    M12 × (Fin 12 → ℚ) :=
  pv_velocity_leg_step residual v_error 2
    (pv_velocity_leg_step residual v_error 1
      (pv_velocity_leg_step residual v_error 0 (cov0, fun _ => 0)))

/-- pseudorange_ins_qkf::obs_gps_pv_report: the position leg against pt_cov
    (with the source's cov.block<1,4>(i,0) row), applied to the mean; then the
    velocity leg against cov, applied to the mean. -/
def obs_gps_pv_report (sqrtQ : ℚ → ℚ) (expQ : V3 → Quat)
    (f : pseudorange_ins_qkf) (pos vel : V3) (p_error v_error : V3) :
    pseudorange_ins_qkf :=
  let residual_p : V3 := pos - f.avg_state.position
  let leg_p := pv_position_leg f.pt_cov f.cov residual_p p_error
  let st1 := apply_kalman_vec_update4 f.avg_state leg_p.2
  let residual_v : V3 := vel - st1.velocity
  let leg_v := pv_velocity_leg f.cov residual_v v_error
  let st2 := apply_kalman_vec_update12 sqrtQ expQ st1 leg_v.2
  { avg_state := st2, cov := leg_v.1, pt_cov := leg_p.1 }

/-- pseudorange_ins_qkf::sigma_point_difference: the 16-element error vector
    [gyro_bias, attitude, velocity, accel_bias, position, clock].  The attitude
    difference is log(mean_conj * q), with q the point's quaternion negated
    first when the coefficient dot product with the mean's is negative. -/
def sigma_point_difference (logQ : Quat → V3) (mean point : State) :
    Fin 16 → ℚ :=
  let att : V3 :=
    if qcdot mean.orientation point.orientation < 0 then
      logQ (qmul (qconj mean.orientation) (qneg point.orientation))
    else
      logQ (qmul (qconj mean.orientation) point.orientation)
  fun k =>
    if h : k.val < 3 then (point.gyro_bias - mean.gyro_bias) ⟨k.val, h⟩
    else if h : k.val < 6 then att ⟨k.val - 3, by omega⟩
    else if h : k.val < 9 then (point.velocity - mean.velocity) ⟨k.val - 6, by omega⟩
    else if h : k.val < 12 then (point.accel_bias - mean.accel_bias) ⟨k.val - 9, by omega⟩
    else if h : k.val < 15 then (point.position - mean.position) ⟨k.val - 12, by omega⟩
    else point.clock_bias - mean.clock_bias

/-- Real-valued quaternion coefficients, for the one place the source compares
    a genuine Euclidean norm against a square-root threshold
    (pseudorange_ins_qkf::invariants_met). -/
structure RQuat where
  w : ℝ
  x : ℝ
  y : ℝ
  z : ℝ

/-- Squared coefficient norm of a real quaternion. -/
def qnormSqR (q : RQuat) : ℝ := q.w * q.w + q.x * q.x + q.y * q.y + q.z * q.z

/-- The quaternion-norm clause of pseudorange_ins_qkf::invariants_met:
    abs(1 - 1.0/orientation.norm()) < sqrt(numeric_limits<float>::epsilon()).
    The finiteness clause (is_real) is identically true in exact real
    arithmetic, where no NaN or Inf exists, so it is omitted here.
    Note the threshold is sqrt(machine epsilon) = sqrt(2^-23), with no factor
    of 1000, and the quantity tested is |1 - 1/norm|, not |norm - 1|. -/
def invariants_met_quat (q : RQuat) : Prop :=
  |1 - 1 / Real.sqrt (qnormSqR q)| < Real.sqrt ((2 : ℝ) ^ (-23 : ℤ))

/-- A sample mean state used by the concrete evaluations below. -/
def exState : State :=
  { position := 0
    velocity := 0
    orientation := qOne
    gyro_bias := 0
    accel_bias := 0
    clock_bias := 0
    inertial_accel := 0
    body_rate := 0 }

/-- A symmetric 12x12 covariance whose only off-diagonal entries are
    cov(0,3) = cov(3,0) = 4; all diagonal entries are 1. -/
def exCov : M12 :=
  Matrix.of fun i j =>
    if i = j then 1
    else if (i.val = 0 ∧ j.val = 3) ∨ (i.val = 3 ∧ j.val = 0) then 4 else 0

/-- The identity 4x4 position/clock covariance used by the concrete
    evaluations below. -/
def exPt : M4 := Matrix.of fun i j => if i = j then 1 else 0

/-- The concrete filter state used by the pv-report evaluations: zero mean,
    exCov, exPt. -/
def exFilter : pseudorange_ins_qkf :=
  { avg_state := exState, cov := exCov, pt_cov := exPt }

/-- Per-axis measurement error (1, 1, 1) used by the concrete evaluations. -/
def exErr : V3 := fun _ => 1

/-- Concrete process-noise parameters for the closed evaluations below. -/
def exParams : Params :=
  { gyro_stability_noise := fun _ => 1
    gyro_white_noise := fun _ => 1
    accel_white_noise := fun _ => 1
    accel_stability_noise := fun _ => 1
    clock_stability_noise := 1
    accel_gravity_norm := 10 }

/-- A concrete filter at nonzero position (1, 0, 0). -/
def exFilterPos : pseudorange_ins_qkf :=
  { avg_state := { exState with position := ![1, 0, 0] }, cov := exCov, pt_cov := exPt }

/-- A concrete stand-in for the quaternion exp map, used where a closed
    statement needs one; it maps the zero vector to the identity quaternion
    as the real exp map does. -/
def exExp : V3 → Quat := fun v => ⟨1, v 0, v 1, v 2⟩

/-- The sample state with the orientation negated coefficient-wise, a distinct
    representation of the same rotation as exState. -/
def exPoint : State := { exState with orientation := qneg qOne }

/-- A concrete replacement block for the clear_covariance_block witness. -/
def exRepl : M3 := Matrix.of fun a b => (a.val * 3 + b.val + 1 : ℚ)

/-- Helper lemmas about the block operations. -/
theorem addB_zero (M : M12) (r c : Fin 4) : addB M r c 0 = M := by
  funext i j
  simp only [addB, Matrix.of_apply, Matrix.zero_apply, add_zero]
  split <;> rfl

theorem addPt33_zero (P : M4) : addPt33 P 0 = P := by
  funext i j
  simp only [addPt33, Matrix.of_apply, Matrix.zero_apply, add_zero]
  split <;> rfl

theorem addClock_zero (P : M4) : addClock P 0 = P := by
  funext i j
  simp only [addClock, Matrix.of_apply, add_zero]
  split <;> rfl

theorem setB_getB_symm (M : M12) (h : Mᵀ = M) (r c : Fin 4) :
    setB M r c ((getB M c r)ᵀ) = M := by
  funext i j
  simp only [setB, Matrix.of_apply]
  split
  case isTrue hin =>
    have hM : ∀ a b, M a b = M b a := by
      intro a b
      calc M a b = Mᵀ b a := rfl
        _ = M b a := by rw [h]
    simp only [Matrix.transpose_apply, getB, Matrix.of_apply]
    have hi : (⟨3 * r.val + i.val % 3, by omega⟩ : Fin 12) = i := by
      apply Fin.ext
      simp only []
      omega
    have hj : (⟨3 * c.val + j.val % 3, by omega⟩ : Fin 12) = j := by
      apply Fin.ext
      simp only []
      omega
    rw [hi, hj]
    exact hM j i
  case isFalse => rfl

theorem qOne_mul (q : Quat) : qmul qOne q = q := by
  cases q
  simp only [qmul, qOne]
  congr 1 <;> ring

/-- C1: the claim says the position leg of obs_gps_pv_report subtracts the gain
    times row i of pt_cov and does not use any row of the 12x12 inertial
    covariance.  The source instead reads cov.block<1,4>(i,0).  At the concrete
    symmetric input (pt_cov the 4x4 identity, cov the 12x12 identity except
    cov(0,3) = cov(3,0) = 4, per-axis error 1, zero residual), the source's leg
    drives pt_cov(0,3) to -2 while the claimed (Kalman-correct) form leaves it
    at 0, so the two disagree: the code contradicts the claim. -/
theorem c1_position_leg_reads_inertial_cov_row :
    (pv_position_leg exPt exCov 0 exErr).1 0 3 = -2 ∧
    (pv_position_leg exPt exCov 0 exErr).1 3 0 = 0 ∧
    (pv_position_leg_per_spec exPt 0 exErr).1 0 3 = 0 ∧
    (pv_position_leg exPt exCov 0 exErr).1 ≠ (pv_position_leg_per_spec exPt 0 exErr).1 := by
  with_unfolding_all decide

/-- C2: the claim says every public operation preserves symmetry of cov and
    pt_cov.  Starting from the symmetric exFilter (both conjuncts verified
    here), obs_gps_pv_report leaves pt_cov asymmetric — its position leg
    multiplies the gain by row i of the 12x12 cov instead of pt_cov — so the
    claim fails at this input. -/
theorem c2_pv_report_breaks_pt_cov_symmetry :
    exFilter.covᵀ = exFilter.cov ∧ exFilter.pt_covᵀ = exFilter.pt_cov ∧
    ¬ ((obs_gps_pv_report (fun x => x) (fun _ => qOne) exFilter 0 0 exErr exErr).pt_covᵀ
      = (obs_gps_pv_report (fun x => x) (fun _ => qOne) exFilter 0 0 exErr exErr).pt_cov) := by
  with_unfolding_all decide

/-- C7: obs_gps_pseudorange writes only the accumulator and pt_cov, leaving
    the mean state and the 12x12 cov untouched; obs_gps_deltarange writes only
    the accumulator and cov, leaving the mean state and pt_cov untouched.
    Neither applies the correction to the mean. -/
theorem c7_obs_scalar_updates_frame (sqrtQ : ℚ → ℚ) (f : pseudorange_ins_qkf)
    (accum4 : Fin 4 → ℚ) (accum12 : Fin 12 → ℚ) (sat_pos sat_vel : V3)
    (rho rhodot : ℚ) (err : ℚ) :
    (obs_gps_pseudorange sqrtQ f accum4 sat_pos rho err).1.avg_state = f.avg_state ∧
    (obs_gps_pseudorange sqrtQ f accum4 sat_pos rho err).1.cov = f.cov ∧
    (obs_gps_deltarange sqrtQ f accum12 sat_vel rhodot err).1.avg_state = f.avg_state ∧
    (obs_gps_deltarange sqrtQ f accum12 sat_vel rhodot err).1.pt_cov = f.pt_cov :=
  ⟨rfl, rfl, rfl, rfl⟩

/-- C9: predict_ecef faults (NaN, modelled as none) exactly when the mean
    position is the zero vector: the source normalizes avg_state.position
    unconditionally to build the gravity vector, and normalizing the zero
    vector divides by a zero norm.  For every nonzero position the call
    returns a state.  The default-constructed filter has position zero, so
    predict_ecef carries the unstated precondition position /= 0. -/
theorem c9_predict_zero_position_faults (sqrtQ : ℚ → ℚ) (expQ : V3 → Quat)
    (prm : Params) (f : pseudorange_ins_qkf) (gyro_meas accel_meas : V3) (dt : ℚ) :
    predict_ecef sqrtQ expQ prm f gyro_meas accel_meas dt = none ↔
      f.avg_state.position = 0 := by
  constructor
  · intro h
    by_contra hp
    simp only [predict_ecef, if_neg hp] at h
    exact Option.noConfusion h
  · intro h
    simp only [predict_ecef, if_pos h]

theorem fin4_val_zero : (0 : Fin 4).val = 0 := rfl

theorem fin4_val_one : (1 : Fin 4).val = 1 := rfl

theorem fin4_val_two : (2 : Fin 4).val = 2 := rfl

theorem fin4_val_three : (3 : Fin 4).val = 3 := rfl

/-- C10: the default constructor: mean at the origin with identity attitude,
    zero velocity, zero biases, zero clock bias; cov diagonal blocks
    (3 pi/180)^2 I (gyro bias), (pi^2/2) I (attitude), 100 I (velocity),
    0.3^2 I (accel bias); pt_cov position block (100e3)^2 I and clock variance
    300^2; all off-diagonal entries of both matrices zero.  piQ is the double
    constant M_PI. -/
theorem c10_default_constructor (piQ : ℚ) :
    (defaultFilter piQ).avg_state.position = 0 ∧
    (defaultFilter piQ).avg_state.orientation = qOne ∧
    (defaultFilter piQ).avg_state.velocity = 0 ∧
    (defaultFilter piQ).avg_state.gyro_bias = 0 ∧
    (defaultFilter piQ).avg_state.accel_bias = 0 ∧
    (defaultFilter piQ).avg_state.clock_bias = 0 ∧
    (∀ i j : Fin 12, (defaultFilter piQ).cov i j =
      if i = j then
        (if i.val < 3 then (3 * piQ / 180) ^ 2
         else if i.val < 6 then piQ ^ 2 / 2
         else if i.val < 9 then 100
         else (3/10) ^ 2)
      else 0) ∧
    (∀ i j : Fin 4, (defaultFilter piQ).pt_cov i j =
      if i = j then (if i.val < 3 then 100000 ^ 2 else 300 ^ 2) else 0) := by
  refine ⟨rfl, rfl, rfl, rfl, rfl, rfl, ?_, ?_⟩
  · rintro ⟨iv, hi⟩ ⟨jv, hj⟩
    simp only [defaultFilter, setB, Matrix.of_apply, Matrix.zero_apply, Matrix.smul_apply,
      smul_eq_mul, Matrix.one_apply, Fin.mk.injEq, Fin.ext_iff,
      fin4_val_zero, fin4_val_one, fin4_val_two, fin4_val_three]
    split_ifs <;> first | ring1 | (exfalso; omega)
  · rintro ⟨iv, hi⟩ ⟨jv, hj⟩
    simp only [defaultFilter, Matrix.of_apply, Fin.mk.injEq, Fin.ext_iff]
    split_ifs <;> first | ring1 | (exfalso; omega)

/-- C4: for every state with nonzero position and every input, predict_ecef
    updates the mean as: orientation becomes exp(omega dt) * orientation with
    omega = gyro_meas - gyro_bias; position becomes
    position + velocity dt + (dt^2/2) a and velocity becomes velocity + dt a,
    both from the pre-update mean, where the inertial acceleration a is the
    conjugate-rotated bias-corrected accelerometer sample minus the gravity
    vector (position/||position||) * accel_gravity_norm. -/
theorem c4_predict_mean_update (sqrtQ : ℚ → ℚ) (expQ : V3 → Quat) (prm : Params)
    (f : pseudorange_ins_qkf) (gyro_meas accel_meas : V3) (dt : ℚ)
    (hp : f.avg_state.position ≠ 0) :
    Option.map (fun g => (g.avg_state.orientation, g.avg_state.position, g.avg_state.velocity))
      (predict_ecef sqrtQ expQ prm f gyro_meas accel_meas dt) =
    some
      (qmul (expQ (dt • (gyro_meas - f.avg_state.gyro_bias))) f.avg_state.orientation,
       f.avg_state.position + dt • f.avg_state.velocity +
         (dt ^ 2 / 2) •
           (qrot (qconj f.avg_state.orientation) (accel_meas - f.avg_state.accel_bias)
             - prm.accel_gravity_norm • normalized3 sqrtQ f.avg_state.position),
       f.avg_state.velocity + dt •
           (qrot (qconj f.avg_state.orientation) (accel_meas - f.avg_state.accel_bias)
             - prm.accel_gravity_norm • normalized3 sqrtQ f.avg_state.position)) := by
  simp only [predict_ecef, if_neg hp]
  rw [show ((1:ℚ)/2) * dt * dt = dt ^ 2 / 2 from by ring]
  rfl

/-- C4 witness: the theorem applied at a concrete nonzero-position state. -/
theorem c4_witness :
    exFilterPos.avg_state.position ≠ 0 ∧
    Option.map (fun g => (g.avg_state.orientation, g.avg_state.position, g.avg_state.velocity))
      (predict_ecef (fun x => x) exExp exParams exFilterPos ![1,2,3] ![4,5,6] 2) =
    some
      (qmul (exExp ((2:ℚ) • (![1,2,3] - exFilterPos.avg_state.gyro_bias)))
         exFilterPos.avg_state.orientation,
       exFilterPos.avg_state.position + (2:ℚ) • exFilterPos.avg_state.velocity +
         ((2:ℚ) ^ 2 / 2) •
           (qrot (qconj exFilterPos.avg_state.orientation) (![4,5,6] - exFilterPos.avg_state.accel_bias)
             - exParams.accel_gravity_norm • normalized3 (fun x => x) exFilterPos.avg_state.position),
       exFilterPos.avg_state.velocity + (2:ℚ) •
           (qrot (qconj exFilterPos.avg_state.orientation) (![4,5,6] - exFilterPos.avg_state.accel_bias)
             - exParams.accel_gravity_norm • normalized3 (fun x => x) exFilterPos.avg_state.position)) :=
  ⟨by with_unfolding_all decide,
   c4_predict_mean_update (fun x => x) exExp exParams exFilterPos ![1,2,3] ![4,5,6] 2
     (by with_unfolding_all decide)⟩

/-- C5 counterexample: at the default-constructed filter (whose mean position
    is the origin), predict_ecef with bias-valued inputs and dt = 0 does not
    leave the state unchanged: it faults (NaN from normalizing the zero
    position, modelled as none). -/
theorem c5_zero_position_counterexample :
    predict_ecef (fun x => x) exExp exParams (defaultFilter 3)
      (defaultFilter 3).avg_state.gyro_bias (defaultFilter 3).avg_state.accel_bias 0 = none ∧
    (defaultFilter 3).avg_state.position = 0 :=
  ⟨by with_unfolding_all rfl, by with_unfolding_all decide⟩

/-- C5 as amended: for every filter state with nonzero position and symmetric
    cov, predict_ecef with gyro input equal to gyro_bias, accel input equal to
    accel_bias and dt = 0 leaves position, velocity, orientation, gyro_bias,
    accel_bias, clock_bias and both covariance matrices exactly unchanged
    (given that the exp primitive maps the zero vector to the identity
    quaternion, as the real exp map does). -/
theorem c5_predict_identity_at_zero_dt (sqrtQ : ℚ → ℚ) (expQ : V3 → Quat)
    (prm : Params) (f : pseudorange_ins_qkf) (hexp : expQ 0 = qOne)
    (hp : f.avg_state.position ≠ 0) (hsym : f.covᵀ = f.cov) :
    Option.map (fun g => (g.avg_state.position, g.avg_state.velocity, g.avg_state.orientation,
        g.avg_state.gyro_bias, g.avg_state.accel_bias, g.avg_state.clock_bias, g.cov, g.pt_cov))
      (predict_ecef sqrtQ expQ prm f f.avg_state.gyro_bias f.avg_state.accel_bias 0) =
    some (f.avg_state.position, f.avg_state.velocity, f.avg_state.orientation,
        f.avg_state.gyro_bias, f.avg_state.accel_bias, f.avg_state.clock_bias, f.cov, f.pt_cov) := by
  simp only [predict_ecef, if_neg hp, neg_zero, zero_smul, smul_zero, mul_zero, zero_mul,
    Matrix.transpose_zero, Matrix.mul_zero, Matrix.zero_mul, add_zero, zero_add,
    addB_zero, addPt33_zero, addClock_zero, setB_getB_symm _ hsym, sub_self, hexp, qOne_mul]
  rfl

/-- C5 witness: the amended theorem applied at a concrete nonzero-position
    state with symmetric covariance. -/
theorem c5_witness :
    Option.map (fun g => (g.avg_state.position, g.avg_state.velocity, g.avg_state.orientation,
        g.avg_state.gyro_bias, g.avg_state.accel_bias, g.avg_state.clock_bias, g.cov, g.pt_cov))
      (predict_ecef (fun x => x) exExp exParams exFilterPos
        exFilterPos.avg_state.gyro_bias exFilterPos.avg_state.accel_bias 0) =
    some (exFilterPos.avg_state.position, exFilterPos.avg_state.velocity,
        exFilterPos.avg_state.orientation, exFilterPos.avg_state.gyro_bias,
        exFilterPos.avg_state.accel_bias, exFilterPos.avg_state.clock_bias,
        exFilterPos.cov, exFilterPos.pt_cov) :=
  c5_predict_identity_at_zero_dt (fun x => x) exExp exParams exFilterPos
    (by with_unfolding_all decide) (by with_unfolding_all decide) (by with_unfolding_all decide)

/-- C3 counterexample: the quaternion (201/200, 0, 0, 0) has norm deviation
    1/200 from unity, within the claimed pass threshold sqrt(1000 * 2^-23)
    (about 0.0109), and all its entries are finite; yet invariants_met reports
    a fault, because the source's threshold is sqrt(2^-23) (about 3.45e-4)
    applied to |1 - 1/norm| = 1/201. -/
theorem c3_threshold_counterexample :
    |Real.sqrt (qnormSqR (⟨201/200, 0, 0, 0⟩ : RQuat)) - 1| ≤ Real.sqrt (1000 * (2:ℝ) ^ (-23 : ℤ)) ∧
    ¬ invariants_met_quat (⟨201/200, 0, 0, 0⟩ : RQuat) := by
  have hn : qnormSqR (⟨201/200, 0, 0, 0⟩ : RQuat) = (201/200 : ℝ) ^ 2 := by norm_num [qnormSqR]
  have hs : Real.sqrt (qnormSqR (⟨201/200, 0, 0, 0⟩ : RQuat)) = 201/200 := by
    rw [hn, Real.sqrt_sq (by norm_num)]
  constructor
  · rw [hs]
    apply Real.le_sqrt_of_sq_le
    norm_num
  · unfold invariants_met_quat
    rw [hs]
    simp only [not_lt]
    have h1 : |1 - 1 / (201/200 : ℝ)| = 1/201 := by
      rw [abs_of_pos] <;> norm_num
    rw [h1]
    rw [Real.sqrt_le_left (by norm_num)]
    norm_num

/-- C3 as amended: the quaternion-norm clause of invariants_met reports a
    fault exactly when |1 - 1/norm| reaches sqrt(machine epsilon) =
    sqrt(2^-23) — equivalently, for positive squared norm, when the norm's
    deviation from unity reaches sqrt(2^-23) times the norm itself.  The
    factor is machine epsilon alone, not 1000 machine epsilon, and the claim's
    finiteness condition is vacuous in exact real arithmetic. -/
theorem c3_invariants_met_threshold (q : RQuat) (h : 0 < qnormSqR q) :
    invariants_met_quat q ↔
      |Real.sqrt (qnormSqR q) - 1| <
        Real.sqrt ((2:ℝ) ^ (-23 : ℤ)) * Real.sqrt (qnormSqR q) := by
  have hs : 0 < Real.sqrt (qnormSqR q) := Real.sqrt_pos.mpr h
  unfold invariants_met_quat
  rw [show (1:ℝ) - 1 / Real.sqrt (qnormSqR q)
      = (Real.sqrt (qnormSqR q) - 1) / Real.sqrt (qnormSqR q) from by field_simp,
    abs_div, abs_of_pos hs, div_lt_iff₀ hs]

/-- C3 witness: the amended threshold equivalence at the identity
    quaternion. -/
theorem c3_witness :
    (0:ℝ) < qnormSqR (⟨1, 0, 0, 0⟩ : RQuat) ∧
    (invariants_met_quat (⟨1, 0, 0, 0⟩ : RQuat) ↔
      |Real.sqrt (qnormSqR (⟨1, 0, 0, 0⟩ : RQuat)) - 1| <
        Real.sqrt ((2:ℝ) ^ (-23 : ℤ)) * Real.sqrt (qnormSqR (⟨1, 0, 0, 0⟩ : RQuat))) :=
  ⟨by norm_num [qnormSqR],
   c3_invariants_met_threshold (⟨1, 0, 0, 0⟩ : RQuat) (by norm_num [qnormSqR])⟩

/-- C8: the attitude component of sigma_point_difference is
    log(mean_conj * q), with q the point's quaternion when the coefficient dot
    product of the two quaternions is non-negative and its negation otherwise;
    in particular, for quaternions (1,0,0,0) and (-1,0,0,0) with otherwise
    equal fields, the attitude components of the difference are exactly zero
    (the log primitive maps the identity quaternion to the zero vector), not a
    2 pi rotation. -/
theorem c8_sigma_point_hemisphere (logQ : Quat → V3) (hlog : logQ qOne = 0)
    (mean point : State) (k : Fin 3) :
    (sigma_point_difference logQ mean point ⟨k.val + 3, by omega⟩ =
      (if qcdot mean.orientation point.orientation < 0 then
         logQ (qmul (qconj mean.orientation) (qneg point.orientation))
       else logQ (qmul (qconj mean.orientation) point.orientation)) k) ∧
    (mean.orientation = qOne → point.orientation = qneg qOne →
      sigma_point_difference logQ mean point ⟨k.val + 3, by omega⟩ = 0) := by
  have h1 : ¬(k.val + 3 < 3) := by omega
  have h2 : k.val + 3 < 6 := by omega
  have hmain : sigma_point_difference logQ mean point ⟨k.val + 3, by omega⟩ =
      (if qcdot mean.orientation point.orientation < 0 then
         logQ (qmul (qconj mean.orientation) (qneg point.orientation))
       else logQ (qmul (qconj mean.orientation) point.orientation)) k := by
    simp only [sigma_point_difference, dif_neg h1, dif_pos h2]
    congr 1
  refine ⟨hmain, fun hm hp => ?_⟩
  rw [hmain, hm, hp]
  have hd : qcdot qOne (qneg qOne) < 0 := by with_unfolding_all decide
  rw [if_pos hd]
  have hq : qmul (qconj qOne) (qneg (qneg qOne)) = qOne := by with_unfolding_all decide
  rw [hq, hlog]
  rfl

/-- C8 witness: the hemisphere case evaluated at the concrete pair of states
    with quaternions (1,0,0,0) and (-1,0,0,0): all three attitude components
    of the difference vanish. -/
theorem c8_witness :
    sigma_point_difference (fun _ => (0 : V3)) exState exPoint ⟨3, by omega⟩ = 0 ∧
    sigma_point_difference (fun _ => (0 : V3)) exState exPoint ⟨4, by omega⟩ = 0 ∧
    sigma_point_difference (fun _ => (0 : V3)) exState exPoint ⟨5, by omega⟩ = 0 :=
  ⟨(c8_sigma_point_hemisphere (fun _ => (0 : V3)) rfl exState exPoint 0).2 rfl rfl,
   (c8_sigma_point_hemisphere (fun _ => (0 : V3)) rfl exState exPoint 1).2 rfl rfl,
   (c8_sigma_point_hemisphere (fun _ => (0 : V3)) rfl exState exPoint 2).2 rfl rfl⟩

/-- Entrywise description of the inertial branch of clear_covariance_block:
    the replacement inside the diagonal block, zero elsewhere in the two
    strips, everything else untouched. -/
theorem clear_cov_entry (f : pseudorange_ins_qkf) (repl : M3) (rc : ℕ) (hrc : rc ≤ 9)
    (i j : Fin 12) :
    (clear_covariance_block rc repl f).cov i j =
      if (rc ≤ i.val ∧ i.val < rc + 3) ∧ (rc ≤ j.val ∧ j.val < rc + 3)
      then repl ⟨(i.val - rc) % 3, by omega⟩ ⟨(j.val - rc) % 3, by omega⟩
      else if (rc ≤ i.val ∧ i.val < rc + 3) ∨ (rc ≤ j.val ∧ j.val < rc + 3) then 0
      else f.cov i j := by
  simp only [clear_covariance_block, if_pos hrc, Matrix.of_apply]
  split_ifs <;> first | rfl | (exfalso; omega)

/-- C6: clear_covariance_block with an inertial index in {0, 3, 6, 9} writes
    the replacement into the 3x3 diagonal block, zeroes the rest of the 3x12
    row strip and 12x3 column strip, and leaves every other cov entry, all of
    pt_cov and the mean unchanged; with the position sentinel 12 it resets
    pt_cov (replacement in the position block, clock variance 300^2, zero
    elsewhere) and leaves cov and the mean unchanged.  Consequently
    init_attitude / init_velocity / init_position leave the given mean value
    readable, set the chosen covariance block to the supplied error (diagonal
    form for the vector overloads), and zero its cross-covariances. -/
theorem c6_clear_covariance_block_spec (f : pseudorange_ins_qkf) (repl : M3)
    (rc : ℕ) (hrc : rc ∈ ({0, 3, 6, 9} : Finset ℕ)) (i j : Fin 12) (i4 j4 : Fin 4)
    (q : Quat) (v p err3 : V3) (b : Fin 4) (a3 b3 : Fin 3) :
    (((rc ≤ i.val ∧ i.val < rc + 3) ∧ (rc ≤ j.val ∧ j.val < rc + 3) →
        (clear_covariance_block rc repl f).cov i j =
          repl ⟨(i.val - rc) % 3, by omega⟩ ⟨(j.val - rc) % 3, by omega⟩) ∧
     (((rc ≤ i.val ∧ i.val < rc + 3) ∨ (rc ≤ j.val ∧ j.val < rc + 3)) →
        ¬((rc ≤ i.val ∧ i.val < rc + 3) ∧ (rc ≤ j.val ∧ j.val < rc + 3)) →
        (clear_covariance_block rc repl f).cov i j = 0) ∧
     (¬(rc ≤ i.val ∧ i.val < rc + 3) → ¬(rc ≤ j.val ∧ j.val < rc + 3) →
        (clear_covariance_block rc repl f).cov i j = f.cov i j) ∧
     (clear_covariance_block rc repl f).pt_cov = f.pt_cov ∧
     (clear_covariance_block rc repl f).avg_state = f.avg_state) ∧
    ((clear_covariance_block 12 repl f).pt_cov i4 j4 =
        (if h : i4.val < 3 ∧ j4.val < 3 then repl ⟨i4.val, h.1⟩ ⟨j4.val, h.2⟩
         else if i4.val = 3 ∧ j4.val = 3 then 300 * 300 else 0) ∧
     (clear_covariance_block 12 repl f).cov = f.cov ∧
     (clear_covariance_block 12 repl f).avg_state = f.avg_state) ∧
    ((init_attitude q repl f).avg_state.orientation = q ∧
     getB (init_attitude q repl f).cov 1 1 = repl ∧
     (b ≠ 1 → getB (init_attitude q repl f).cov 1 b = 0 ∧
              getB (init_attitude q repl f).cov b 1 = 0)) ∧
    ((init_velocity v err3 f).avg_state.velocity = v ∧
     getB (init_velocity v err3 f).cov 2 2 = Matrix.diagonal err3 ∧
     (b ≠ 2 → getB (init_velocity v err3 f).cov 2 b = 0 ∧
              getB (init_velocity v err3 f).cov b 2 = 0)) ∧
    ((init_position p err3 f).avg_state.position = p ∧
     (init_position p err3 f).pt_cov ⟨a3.val, by omega⟩ ⟨b3.val, by omega⟩ =
        Matrix.diagonal err3 a3 b3 ∧
     (init_position p err3 f).pt_cov ⟨a3.val, by omega⟩ 3 = 0 ∧
     (init_position p err3 f).pt_cov 3 ⟨a3.val, by omega⟩ = 0 ∧
     (init_position p err3 f).pt_cov 3 3 = 300 * 300) := by
  have hrc9 : rc ≤ 9 := by
    simp only [Finset.mem_insert, Finset.mem_singleton] at hrc
    rcases hrc with rfl | rfl | rfl | rfl <;> norm_num
  have h12 : ¬((12 : ℕ) ≤ 9) := by norm_num
  refine ⟨⟨?_, ?_, ?_, ?_, ?_⟩, ⟨?_, ?_, ?_⟩, ⟨?_, ?_, ?_⟩, ⟨?_, ?_, ?_⟩, ⟨?_, ?_, ?_, ?_, ?_⟩⟩
  · intro h
    rw [clear_cov_entry f repl rc hrc9, if_pos h]
  · intro hor hnand
    rw [clear_cov_entry f repl rc hrc9, if_neg hnand, if_pos hor]
  · intro hi hj
    rw [clear_cov_entry f repl rc hrc9, if_neg (by tauto), if_neg (by tauto)]
  · simp only [clear_covariance_block, if_pos hrc9]
  · simp only [clear_covariance_block, if_pos hrc9]
  · simp only [clear_covariance_block, if_neg h12, Matrix.of_apply]
  · simp only [clear_covariance_block, if_neg h12]
  · simp only [clear_covariance_block, if_neg h12]
  · rfl
  · funext a c
    fin_cases a <;> fin_cases c <;> rfl
  · intro hb
    constructor <;> funext a c <;> fin_cases b <;>
      first
        | exact absurd rfl hb
        | (fin_cases a <;> fin_cases c <;> rfl)
  · rfl
  · funext a c
    fin_cases a <;> fin_cases c <;> rfl
  · intro hb
    constructor <;> funext a c <;> fin_cases b <;>
      first
        | exact absurd rfl hb
        | (fin_cases a <;> fin_cases c <;> rfl)
  · rfl
  · fin_cases a3 <;> fin_cases b3 <;> rfl
  · fin_cases a3 <;> rfl
  · fin_cases a3 <;> rfl
  · rfl

/-- C6 witness: the theorem applied at the default filter with concrete
    replacement, indices and init arguments. -/
theorem c6_witness :
    (clear_covariance_block 0 exRepl (defaultFilter 3)).cov ⟨1, by omega⟩ ⟨2, by omega⟩ =
      exRepl ⟨1, by omega⟩ ⟨2, by omega⟩ ∧
    (clear_covariance_block 0 exRepl (defaultFilter 3)).cov ⟨1, by omega⟩ ⟨7, by omega⟩ = 0 ∧
    (clear_covariance_block 0 exRepl (defaultFilter 3)).cov ⟨5, by omega⟩ ⟨7, by omega⟩ =
      (defaultFilter 3).cov ⟨5, by omega⟩ ⟨7, by omega⟩ ∧
    (clear_covariance_block 0 exRepl (defaultFilter 3)).pt_cov = (defaultFilter 3).pt_cov ∧
    (clear_covariance_block 12 exRepl (defaultFilter 3)).pt_cov 1 2 =
      exRepl ⟨1, by omega⟩ ⟨2, by omega⟩ ∧
    (clear_covariance_block 12 exRepl (defaultFilter 3)).pt_cov 3 3 = 300 * 300 ∧
    (clear_covariance_block 12 exRepl (defaultFilter 3)).cov = (defaultFilter 3).cov ∧
    (init_attitude ⟨0, 1, 0, 0⟩ exRepl (defaultFilter 3)).avg_state.orientation = ⟨0, 1, 0, 0⟩ ∧
    getB (init_attitude ⟨0, 1, 0, 0⟩ exRepl (defaultFilter 3)).cov 1 1 = exRepl ∧
    getB (init_attitude ⟨0, 1, 0, 0⟩ exRepl (defaultFilter 3)).cov 1 3 = 0 ∧
    (init_velocity ![1, 2, 3] ![7, 8, 9] (defaultFilter 3)).avg_state.velocity = ![1, 2, 3] ∧
    getB (init_velocity ![1, 2, 3] ![7, 8, 9] (defaultFilter 3)).cov 2 2 =
      Matrix.diagonal ![7, 8, 9] ∧
    getB (init_velocity ![1, 2, 3] ![7, 8, 9] (defaultFilter 3)).cov 2 3 = 0 ∧
    (init_position ![4, 5, 6] ![7, 8, 9] (defaultFilter 3)).avg_state.position = ![4, 5, 6] ∧
    (init_position ![4, 5, 6] ![7, 8, 9] (defaultFilter 3)).pt_cov ⟨0, by omega⟩ ⟨1, by omega⟩ =
      Matrix.diagonal ![7, 8, 9] 0 1 ∧
    (init_position ![4, 5, 6] ![7, 8, 9] (defaultFilter 3)).pt_cov ⟨0, by omega⟩ 3 = 0 ∧
    (init_position ![4, 5, 6] ![7, 8, 9] (defaultFilter 3)).pt_cov 3 ⟨0, by omega⟩ = 0 ∧
    (init_position ![4, 5, 6] ![7, 8, 9] (defaultFilter 3)).pt_cov 3 3 = 300 * 300 := by
  have H := c6_clear_covariance_block_spec (defaultFilter 3) exRepl 0 (by decide)
  refine ⟨?_, ?_, ?_, ?_, ?_, ?_, ?_, ?_, ?_, ?_, ?_, ?_, ?_, ?_, ?_, ?_, ?_, ?_⟩
  · exact (H ⟨1, by omega⟩ ⟨2, by omega⟩ 1 2 ⟨0,1,0,0⟩ ![1,2,3] ![4,5,6] ![7,8,9] 3 0 1).1.1
      (by decide)
  · exact (H ⟨1, by omega⟩ ⟨7, by omega⟩ 1 2 ⟨0,1,0,0⟩ ![1,2,3] ![4,5,6] ![7,8,9] 3 0 1).1.2.1
      (by decide) (by decide)
  · exact (H ⟨5, by omega⟩ ⟨7, by omega⟩ 1 2 ⟨0,1,0,0⟩ ![1,2,3] ![4,5,6] ![7,8,9] 3 0 1).1.2.2.1
      (by decide) (by decide)
  · exact (H ⟨5, by omega⟩ ⟨7, by omega⟩ 1 2 ⟨0,1,0,0⟩ ![1,2,3] ![4,5,6] ![7,8,9] 3 0 1).1.2.2.2.1
  · exact (H ⟨5, by omega⟩ ⟨7, by omega⟩ 1 2 ⟨0,1,0,0⟩ ![1,2,3] ![4,5,6] ![7,8,9] 3 0 1).2.1.1
  · exact (H ⟨5, by omega⟩ ⟨7, by omega⟩ 3 3 ⟨0,1,0,0⟩ ![1,2,3] ![4,5,6] ![7,8,9] 3 0 1).2.1.1
  · exact (H ⟨5, by omega⟩ ⟨7, by omega⟩ 1 2 ⟨0,1,0,0⟩ ![1,2,3] ![4,5,6] ![7,8,9] 3 0 1).2.1.2.1
  · exact (H ⟨5, by omega⟩ ⟨7, by omega⟩ 1 2 ⟨0,1,0,0⟩ ![1,2,3] ![4,5,6] ![7,8,9] 3 0 1).2.2.1.1
  · exact (H ⟨5, by omega⟩ ⟨7, by omega⟩ 1 2 ⟨0,1,0,0⟩ ![1,2,3] ![4,5,6] ![7,8,9] 3 0 1).2.2.1.2.1
  · exact ((H ⟨5, by omega⟩ ⟨7, by omega⟩ 1 2 ⟨0,1,0,0⟩ ![1,2,3] ![4,5,6] ![7,8,9] 3 0 1).2.2.1.2.2
      (by decide)).1
  · exact (H ⟨5, by omega⟩ ⟨7, by omega⟩ 1 2 ⟨0,1,0,0⟩ ![1,2,3] ![4,5,6] ![7,8,9] 3 0 1).2.2.2.1.1
  · exact (H ⟨5, by omega⟩ ⟨7, by omega⟩ 1 2 ⟨0,1,0,0⟩ ![1,2,3] ![4,5,6] ![7,8,9] 3 0 1).2.2.2.1.2.1
  · exact ((H ⟨5, by omega⟩ ⟨7, by omega⟩ 1 2 ⟨0,1,0,0⟩ ![1,2,3] ![4,5,6] ![7,8,9] 3 0 1).2.2.2.1.2.2
      (by decide)).1
  · exact (H ⟨5, by omega⟩ ⟨7, by omega⟩ 1 2 ⟨0,1,0,0⟩ ![1,2,3] ![4,5,6] ![7,8,9] 3 0 1).2.2.2.2.1
  · exact (H ⟨5, by omega⟩ ⟨7, by omega⟩ 1 2 ⟨0,1,0,0⟩ ![1,2,3] ![4,5,6] ![7,8,9] 3 0 1).2.2.2.2.2.1
  · exact (H ⟨5, by omega⟩ ⟨7, by omega⟩ 1 2 ⟨0,1,0,0⟩ ![1,2,3] ![4,5,6] ![7,8,9] 3 0 1).2.2.2.2.2.2.1
  · exact (H ⟨5, by omega⟩ ⟨7, by omega⟩ 1 2 ⟨0,1,0,0⟩ ![1,2,3] ![4,5,6] ![7,8,9] 3 0 1).2.2.2.2.2.2.2.1
  · exact (H ⟨5, by omega⟩ ⟨7, by omega⟩ 1 2 ⟨0,1,0,0⟩ ![1,2,3] ![4,5,6] ![7,8,9] 3 0 1).2.2.2.2.2.2.2.2
